import Mathlib

/-!
Shallow embedding of the gesture / seek controller of the video-player
screen (`VideoPlayerScreen`).  Times in seconds are modelled as rationals,
millisecond timestamps as naturals.  JavaScript values that can be
`Infinity` or `NaN` are modelled by the inductive `JsNum`; inputs that can
be `null` / `undefined` by dedicated inductives.  Timers are modelled by a
discrete-event convention: a `setTimeout` whose deadline is ≤ the timestamp
of the next input event fires before that event is processed.
-/

namespace VideoPlayer

/-- `DOUBLE_TAP_DELAY = 300` (milliseconds). -/
def DOUBLE_TAP_DELAY : ℕ := 300

/-- `PLAY_PAUSE_OVERLAY_DURATION = 2500` (milliseconds). -/
def PLAY_PAUSE_OVERLAY_DURATION : ℕ := 2500

/-- `SEEK_INDICATOR_DURATION = 1000` (milliseconds). -/
def SEEK_INDICATOR_DURATION : ℕ := 1000

/-- Target position computed by `seekForward`:
`Math.min(player.currentTime + 10, player.duration)`. -/
def seekForwardTarget (currentTime duration : ℚ) : ℚ :=
  min (currentTime + 10) duration

/-- Target position computed by `seekBackward`:
`Math.max(player.currentTime - 10, 0)`. -/
def seekBackwardTarget (currentTime : ℚ) : ℚ :=
  max (currentTime - 10) 0

/-- A JavaScript number that may be `Infinity`, `-Infinity` or `NaN`
(finite values modelled by rationals; `-0` is not distinguished). -/
inductive JsNum where
  | num (q : ℚ)
  | posInf
  | negInf
  | nan
deriving DecidableEq, Repr

/-- JavaScript division of two finite numbers: division by `0` yields
`Infinity`, `-Infinity` or `NaN` according to the sign of the dividend. -/
def jsDivFin (a b : ℚ) : JsNum :=
  if b = 0 then
    if a = 0 then .nan else if 0 < a then .posInf else .negInf
  else .num (a / b)

/-- `Math.min(c, v)` for a finite first argument: `NaN` is absorbing. -/
def jsMinFin (c : ℚ) : JsNum → JsNum
  | .num b => .num (min c b)
  | .posInf => .num c
  | .negInf => .negInf
  | .nan => .nan

/-- `Math.max(c, v)` for a finite first argument: `NaN` is absorbing. -/
def jsMaxFin (c : ℚ) : JsNum → JsNum
  | .num b => .num (max c b)
  | .posInf => .posInf
  | .negInf => .num c
  | .nan => .nan

/-- The progress fraction computed inside `handleSeekbarPress` (and
identically inside the pan responder's grant and move handlers):
`touchX = event.nativeEvent.pageX - pageX` (the track's page origin),
`newProgress = Math.max(0, Math.min(1, touchX / trackWidth))`.
The source performs no check on `trackWidth`. -/
def handleSeekbarPressProgress (pressPageX trackPageX trackWidth : ℚ) : JsNum :=
  jsMaxFin 0 (jsMinFin 1 (jsDivFin (pressPageX - trackPageX) trackWidth))

/-- Which half of the video was tapped. -/
inductive Half where
  | left
  | right
deriving DecidableEq, Repr

/-- The seek direction recorded by `handleDoubleTap`
(`setSeekDirection('backward' | 'forward')`). -/
inductive SeekDirection where
  | backward
  | forward
deriving DecidableEq, Repr

/-- `isLeftHalf = locationX < videoWidth / 2` in `handleDoubleTap`. -/
def tapHalf (locationX videoWidth : ℚ) : Half :=
  if locationX < videoWidth / 2 then .left else .right

/-- `handleDoubleTap`: on the left half it runs `seekBackward()` and records
direction `'backward'`; on the right half `seekForward()` and `'forward'`.
Returns the recorded direction and the target playback position. -/
def handleDoubleTap (locationX videoWidth currentTime duration : ℚ) :
    SeekDirection × ℚ :=
  if locationX < videoWidth / 2 then (.backward, seekBackwardTarget currentTime)
  else (.forward, seekForwardTarget currentTime duration)

/-- A raw touch-down observed by `handleVideoTap`:
`Date.now()` timestamp in milliseconds and `locationX`. -/
structure TapEvent where
  timestampMs : ℕ
  xPosition : ℚ
deriving DecidableEq, Repr

/-- Terminal classification of taps, tagged with the (0-based) indices of
the taps it consumes. -/
inductive TapClass where
  | single (i : ℕ)
  | double (i j : ℕ) (half : Half)
deriving DecidableEq, Repr

/-- Discrete-event simulation of `handleVideoTap` over a list of taps whose
timestamps increase monotonically. The state is `lastTapRef`
(`some (timestamp, index)` of the recorded tap, or `none`), together with
the index `k` of the next incoming tap.  Before each tap is processed, the
pending `setTimeout(…, DOUBLE_TAP_DELAY)` whose deadline has been reached
fires first, resolving the recorded tap to `single` and nulling
`lastTapRef` (its guard `lastTapRef.current === now` holds because nothing
intervened).  Then the tap itself runs `handleVideoTap`: if `lastTapRef`
is set and `now - lastTapRef.current < DOUBLE_TAP_DELAY`, a `double` is
emitted (half from this second tap's `locationX`) and `lastTapRef` is
nulled; otherwise this tap is recorded.  After the last tap, the remaining
deferred timeout resolves the recorded tap to `single`.  Timeouts made
stale by a `double` (their recorded timestamp no longer matches
`lastTapRef.current`) are no-ops and are not modelled. -/
def simTapsAux (videoWidth : ℚ) :
    Option (ℕ × ℕ) → ℕ → List TapEvent → List TapClass
  | pending, _, [] =>
    match pending with
    | some (_, i) => [.single i]
    | none => []
  | pending, k, e :: rest =>
    match pending with
    | some (t, i) =>
      if t + DOUBLE_TAP_DELAY ≤ e.timestampMs then
        -- the deferred single-tap timeout fires before this tap
        TapClass.single i ::
          simTapsAux videoWidth (some (e.timestampMs, k)) (k + 1) rest
      else
        if e.timestampMs - t < DOUBLE_TAP_DELAY then
          TapClass.double i k (tapHalf e.xPosition videoWidth) ::
            simTapsAux videoWidth none (k + 1) rest
        else
          -- unreachable given the timeout fired above; the source records
          -- the new tap in this branch
          simTapsAux videoWidth (some (e.timestampMs, k)) (k + 1) rest
    | none =>
      simTapsAux videoWidth (some (e.timestampMs, k)) (k + 1) rest

/-- Run the tap simulation from the initial state (`lastTapRef = null`). -/
def simTaps (videoWidth : ℚ) (events : List TapEvent) : List TapClass :=
  simTapsAux videoWidth none 0 events

/-- The tap indices consumed by one classification. -/
def consumedTaps : TapClass → List ℕ
  | .single i => [i]
  | .double i j _ => [i, j]

/-- Timestamps increase strictly along the event list. -/
def StrictlyClocked (events : List TapEvent) : Prop :=
  List.Chain' (fun a b => a.timestampMs < b.timestampMs) events

/-- Concatenation of the tap indices consumed by a list of
classifications, in emission order. -/
def consumedOf : List TapClass → List ℕ
  | [] => []
  | c :: cs => consumedTaps c ++ consumedOf cs

/-- State of a transient overlay: the visibility flag together with the
deadline of the pending auto-hide `setTimeout`, if any. -/
structure OverlayState where
  visible : Bool
  hideAtMs : Option ℕ
deriving DecidableEq, Repr

/-- A trigger (`setShowPlayPauseOverlay(true)` or
`setShowSeekIndicator(true)`) at time `now`.  The auto-hide effect lists
the visibility flag as its only dependency, so it re-runs — clearing the
previous timeout and arming a fresh `durationMs` countdown — only when the
flag transitions from `false` to `true`; a trigger while the overlay is
already visible is a same-value state update, after which React leaves the
dependency unchanged and the effect is not re-invoked, so the state is
unchanged. -/
def overlayTrigger (durationMs now : ℕ) (s : OverlayState) : OverlayState :=
  if s.visible then s
  else { visible := true, hideAtMs := some (now + durationMs) }

/-- The auto-hide timeout firing: visibility becomes false and the timer
is spent. -/
def overlayExpire (s : OverlayState) : OverlayState :=
  match s.hideAtMs with
  | some _ => { visible := false, hideAtMs := none }
  | none => s

/-- Process a list of trigger times in ascending order, firing the pending
auto-hide timeout first whenever its deadline has been reached. -/
def overlayRun (durationMs : ℕ) : OverlayState → List ℕ → OverlayState
  | s, [] => s
  | s, t :: rest =>
    let s₁ :=
      match s.hideAtMs with
      | some d => if d ≤ t then overlayExpire s else s
      | none => s
    overlayRun durationMs (overlayTrigger durationMs t s₁) rest

/-- The initially hidden overlay. -/
def hiddenOverlay : OverlayState :=
  { visible := false, hideAtMs := none }

/-- The fields the polling interval reads from the expo-video player;
`none` models an absent (`undefined`/`null`) value, which the source
coerces with `|| 0`, `|| false` and `|| 'idle'` respectively. -/
structure PlayerSnapshot where
  currentTime : Option ℚ
  duration : Option ℚ
  playing : Option Bool
  status : Option String

/-- The component state the polling interval writes. -/
structure UiState where
  currentTime : ℚ
  duration : ℚ
  isPlaying : Bool
  isBuffering : Bool
  seekbarValue : ℚ
  seekbarPosition : ℚ
  isDragging : Bool
deriving DecidableEq, Repr

/-- One tick of the `setInterval(…, PLAYER_UPDATE_INTERVAL)` callback:
its body is guarded by `player && !isDragging`; it reads the player,
updates time, duration, playing and buffering state, and — only when
`duration > 0` — the seekbar fraction `time / dur` and the pixel position
`progress * seekbarWidth`. -/
def pollStep (seekbarWidth : ℚ) (p : PlayerSnapshot) (s : UiState) : UiState :=
  if s.isDragging then s
  else
    let time := p.currentTime.getD 0
    let dur := p.duration.getD 0
    let s' : UiState :=
      { s with
        currentTime := time
        duration := dur
        isPlaying := p.playing.getD false
        isBuffering := p.status.getD "idle" == "loading" }
    if 0 < dur then
      { s' with
        seekbarValue := time / dur
        seekbarPosition := time / dur * seekbarWidth }
    else s'

/-- The argument of `formatTime`: a number, `NaN`, `null` or `undefined`. -/
inductive JsTimeInput where
  | num (q : ℚ)
  | nan
  | null
  | undef
deriving DecidableEq, Repr

/-- `s.padStart(2, '0')`: prepend `'0'`s until the length is 2. -/
def padStart2 (s : String) : String :=
  if s.length < 2 then String.mk (List.replicate (2 - s.length) '0') ++ s
  else s

/-- `formatTime`: the guard `!seconds || isNaN(seconds)` returns `'0:00'`
(catching `0`, `NaN`, `null` and `undefined`); otherwise
`totalSeconds = Math.floor(seconds)`,
`minutes = Math.floor(totalSeconds / 60)`,
`secs = totalSeconds % 60` (JavaScript remainder, sign of the dividend,
hence `Int.tmod`), rendered as
`minutes + ':' + secs.toString().padStart(2, '0')`. -/
def formatTime : JsTimeInput → String
  | .nan => "0:00"
  | .null => "0:00"
  | .undef => "0:00"
  | .num q =>
    if q = 0 then "0:00"
    else
      let totalSeconds : ℤ := ⌊q⌋
      let minutes : ℤ := ⌊(totalSeconds : ℚ) / 60⌋
      let secs : ℤ := totalSeconds.tmod 60
      toString minutes ++ ":" ++ padStart2 (toString secs)

end VideoPlayer

namespace VideoPlayer

/-- Claim C1 (corrected, counterexample): the claim quantifies over every
`current ≥ 0`, `duration ≥ 0`; but `seekBackward` only clamps below at 0 and
never against `duration`, so at `current = 200`, `duration = 100` its target
is `190 ∉ [0, 100]`. -/
theorem seekBackward_target_escapes_duration_cex :
    seekBackwardTarget 200 = 190 ∧ ¬ ((190 : ℚ) ≤ 100) := by
  constructor
  · norm_num [seekBackwardTarget]
  · norm_num

/-- Claim C1 (corrected, amended): for every `current ≥ 0` and
`duration ≥ 0`, `seekForward`'s target lies in `[0, duration]`;
`seekBackward`'s target lies in `[0, duration]` provided additionally
`current ≤ duration` (as holds for a real playback position); and the two
concrete examples hold: `seekForwardTarget 95 100 = 100`,
`seekBackwardTarget 5 = 0`. -/
theorem seek_targets_clamped (current duration : ℚ)
    (hc : 0 ≤ current) (hd : 0 ≤ duration) :
    (0 ≤ seekForwardTarget current duration ∧
      seekForwardTarget current duration ≤ duration) ∧
    (current ≤ duration →
      0 ≤ seekBackwardTarget current ∧ seekBackwardTarget current ≤ duration) ∧
    seekForwardTarget 95 100 = 100 ∧ seekBackwardTarget 5 = 0 := by
  refine ⟨⟨?_, ?_⟩, ?_, ?_, ?_⟩
  · exact le_min (by linarith) hd
  · exact min_le_right _ _
  · intro hcd
    refine ⟨le_max_right _ _, max_le (by linarith) hd⟩
  · norm_num [seekForwardTarget]
  · norm_num [seekBackwardTarget]

/-- Witness for `seek_targets_clamped` at `current = 95`, `duration = 100`. -/
theorem seek_targets_clamped_witness :
    (0 ≤ (95 : ℚ) ∧ 0 ≤ (100 : ℚ)) ∧
    ((0 ≤ seekForwardTarget 95 100 ∧ seekForwardTarget 95 100 ≤ 100) ∧
      ((95 : ℚ) ≤ 100 →
        0 ≤ seekBackwardTarget 95 ∧ seekBackwardTarget 95 ≤ 100) ∧
      seekForwardTarget 95 100 = 100 ∧ seekBackwardTarget 5 = 0) :=
  ⟨⟨by norm_num, by norm_num⟩,
    seek_targets_clamped 95 100 (by norm_num) (by norm_num)⟩

/-- Claim C4 (corrected, counterexample): with `duration = 0` and
`current = 50` the code's `seekForward` targets `min(50 + 10, 0) = 0`, so
the playback position is moved to `0`, not left at `current = 50`. -/
theorem seekForward_zero_duration_not_noop_cex :
    seekForwardTarget 50 0 = 0 ∧ (0 : ℚ) ≠ 50 := by
  constructor
  · norm_num [seekForwardTarget]
  · norm_num

/-- Claim C4 (corrected, amended): when `duration = 0`, `seekForward`
clamps to `duration` (not to `current`): the target is `0` for every
`current ≥ 0`, i.e. the position is reset to the start, and the seek is a
no-op exactly when `current = 0`. -/
theorem seekForward_zero_duration (current : ℚ) (hc : 0 ≤ current) :
    seekForwardTarget current 0 = 0 ∧
    (seekForwardTarget current 0 = current ↔ current = 0) := by
  have h0 : seekForwardTarget current 0 = 0 := by
    unfold seekForwardTarget
    exact min_eq_right (by linarith)
  refine ⟨h0, ?_⟩
  rw [h0]
  exact ⟨fun h => h.symm, fun h => h.symm⟩

/-- Witness for `seekForward_zero_duration` at `current = 50`. -/
theorem seekForward_zero_duration_witness :
    0 ≤ (50 : ℚ) ∧
    (seekForwardTarget 50 0 = 0 ∧
      (seekForwardTarget 50 0 = 50 ↔ (50 : ℚ) = 0)) :=
  ⟨by norm_num, seekForward_zero_duration 50 (by norm_num)⟩

/-- Claim C5 (corrected, counterexample): at `pressX = 5`, `originX = 0`,
`widthPx = 0` the code does not report any error: `5 / 0` is `Infinity`,
which `Math.min(1, ·)` clamps to `1`, so the press handler returns the
numeric fraction `1`. -/
theorem handleSeekbarPress_zero_width_returns_number_cex :
    handleSeekbarPressProgress 5 0 0 = JsNum.num 1 := by
  norm_num [handleSeekbarPressProgress, jsDivFin, jsMinFin, jsMaxFin]

/-- Claim C5 (corrected, amended): the press handler performs no geometry
check and never reports an `InvalidGeometry` error; for `widthPx ≤ 0` it
still returns a value: with `widthPx = 0` it returns `1` when
`pressX > originX`, `0` when `pressX < originX`, and `NaN` when
`pressX = originX`; with `widthPx < 0` it returns a finite clamped value
in `[0, 1]`. -/
theorem handleSeekbarPress_nonpositive_width (pressPageX trackPageX w : ℚ)
    (hw : w ≤ 0) :
    (w = 0 →
      (trackPageX < pressPageX →
        handleSeekbarPressProgress pressPageX trackPageX w = .num 1) ∧
      (pressPageX < trackPageX →
        handleSeekbarPressProgress pressPageX trackPageX w = .num 0) ∧
      (pressPageX = trackPageX →
        handleSeekbarPressProgress pressPageX trackPageX w = .nan)) ∧
    (w < 0 → ∃ q : ℚ, handleSeekbarPressProgress pressPageX trackPageX w = .num q ∧
      0 ≤ q ∧ q ≤ 1) := by
  constructor
  · intro hw0
    subst hw0
    refine ⟨?_, ?_, ?_⟩
    · intro hlt
      have hpos : 0 < pressPageX - trackPageX := by linarith
      simp [handleSeekbarPressProgress, jsDivFin, hpos, hpos.ne',
        jsMinFin, jsMaxFin]
    · intro hlt
      have hneg : pressPageX - trackPageX < 0 := by linarith
      simp only [handleSeekbarPressProgress, jsDivFin, if_pos rfl]
      rw [if_neg hneg.ne, if_neg (not_lt.mpr hneg.le)]
      simp [jsMinFin, jsMaxFin]
    · intro heq
      simp [handleSeekbarPressProgress, jsDivFin, heq, jsMinFin, jsMaxFin]
  · intro hwneg
    refine ⟨max 0 (min 1 ((pressPageX - trackPageX) / w)), ?_, ?_, ?_⟩
    · simp [handleSeekbarPressProgress, jsDivFin, hwneg.ne, jsMinFin, jsMaxFin]
    · exact le_max_left _ _
    · exact max_le (by norm_num) (min_le_left _ _)

/-- Witness for `handleSeekbarPress_nonpositive_width` at
`pressX = 5`, `originX = 0`, `widthPx = 0`. -/
theorem handleSeekbarPress_nonpositive_width_witness :
    (0 : ℚ) ≤ 0 ∧
    (((0 : ℚ) = 0 →
      ((0 : ℚ) < 5 → handleSeekbarPressProgress 5 0 0 = .num 1) ∧
      ((5 : ℚ) < 0 → handleSeekbarPressProgress 5 0 0 = .num 0) ∧
      ((5 : ℚ) = 0 → handleSeekbarPressProgress 5 0 0 = .nan)) ∧
    ((0 : ℚ) < 0 → ∃ q : ℚ, handleSeekbarPressProgress 5 0 0 = .num q ∧
      0 ≤ q ∧ q ≤ 1)) :=
  ⟨le_refl 0, handleSeekbarPress_nonpositive_width 5 0 0 (le_refl 0)⟩

/-- Claim C6 (confirmed): for `widthPx > 0` the press handler computes
exactly `clamp((pressX − originX) / widthPx, 0, 1)`; that value is
monotonic non-decreasing in `pressX`, always lies in `[0, 1]`, and
`mapPositionToFraction(160, {originX: 0, widthPx: 320}) = 1/2`. -/
theorem handleSeekbarPress_positive_width (trackPageX w : ℚ) (hw : 0 < w) :
    (∀ p : ℚ, handleSeekbarPressProgress p trackPageX w =
      .num (max 0 (min 1 ((p - trackPageX) / w)))) ∧
    (∀ p₁ p₂ : ℚ, p₁ ≤ p₂ →
      max 0 (min 1 ((p₁ - trackPageX) / w)) ≤
        max 0 (min 1 ((p₂ - trackPageX) / w))) ∧
    (∀ p : ℚ, 0 ≤ max 0 (min 1 ((p - trackPageX) / w)) ∧
      max 0 (min 1 ((p - trackPageX) / w)) ≤ 1) ∧
    handleSeekbarPressProgress 160 0 320 = .num (1 / 2) := by
  refine ⟨?_, ?_, ?_, ?_⟩
  · intro p
    simp [handleSeekbarPressProgress, jsDivFin, hw.ne', jsMinFin, jsMaxFin]
  · intro p₁ p₂ hle
    have hdiv : (p₁ - trackPageX) / w ≤ (p₂ - trackPageX) / w := by
      apply div_le_div_of_nonneg_right
      · linarith
      · exact hw.le
    exact max_le_max (le_refl 0) (min_le_min (le_refl 1) hdiv)
  · intro p
    exact ⟨le_max_left _ _, max_le (by norm_num) (min_le_left _ _)⟩
  · norm_num [handleSeekbarPressProgress, jsDivFin, jsMinFin, jsMaxFin]

/-- Witness for `handleSeekbarPress_positive_width` at
`originX = 0`, `widthPx = 320`, evaluated at `pressX = 160`. -/
theorem handleSeekbarPress_positive_width_witness :
    (0 : ℚ) < 320 ∧ handleSeekbarPressProgress 160 0 320 =
      .num (max 0 (min 1 ((160 - 0) / 320))) :=
  ⟨by norm_num, (handleSeekbarPress_positive_width 0 320 (by norm_num)).1 160⟩

/-- Claim C7 (confirmed): a double tap classifies `Left` exactly when
`locationX < videoWidth / 2` and `Right` otherwise; the left half issues a
`−10`-second seek (target `max(current − 10, 0)`), the right half a
`+10`-second seek (target `min(current + 10, duration)`); and taps at
`videoWidth/2 − 1` and `videoWidth/2 + 1` classify `Left` and `Right`
respectively. -/
theorem double_tap_half_direction (x w current duration : ℚ) :
    (tapHalf x w = Half.left ↔ x < w / 2) ∧
    (x < w / 2 → handleDoubleTap x w current duration =
      (.backward, max (current - 10) 0)) ∧
    (¬ x < w / 2 → handleDoubleTap x w current duration =
      (.forward, min (current + 10) duration)) ∧
    tapHalf (w / 2 - 1) w = Half.left ∧
    tapHalf (w / 2 + 1) w = Half.right := by
  refine ⟨?_, ?_, ?_, ?_, ?_⟩
  · unfold tapHalf
    split_ifs with h <;> simp [h]
  · intro h
    simp [handleDoubleTap, h, seekBackwardTarget]
  · intro h
    simp [handleDoubleTap, h, seekForwardTarget]
  · unfold tapHalf
    rw [if_pos (by linarith)]
  · unfold tapHalf
    rw [if_neg (by linarith)]

/-- Witness for `double_tap_half_direction` at `x = 20`, `w = 100`,
`current = 30`, `duration = 500`, discharging the implications. -/
theorem double_tap_half_direction_witness :
    tapHalf 20 100 = Half.left ∧
    handleDoubleTap 20 100 30 500 = (.backward, max ((30 : ℚ) - 10) 0) ∧
    tapHalf ((100 : ℚ) / 2 + 1) 100 = Half.right :=
  ⟨(double_tap_half_direction 20 100 30 500).1.mpr (by norm_num),
    (double_tap_half_direction 20 100 30 500).2.1 (by norm_num),
    (double_tap_half_direction 20 100 30 500).2.2.2.2⟩

/-- Claim C2 (confirmed): two taps separated by `d < DOUBLE_TAP_DELAY`
milliseconds classify as one `double` (halving on the second tap's
position); two taps separated by `d ≥ DOUBLE_TAP_DELAY` classify as two
independent `single`s — the first tap's deferred timeout resolves it to
`single` once the window elapses with no further tap.  In particular
`d = DOUBLE_TAP_DELAY − 1 = 299` gives a `double` and
`d = DOUBLE_TAP_DELAY + 1 = 301` gives two `single`s. -/
theorem tap_pair_classification (t d : ℕ) (x₁ x₂ w : ℚ) (hd : 0 < d) :
    (d < DOUBLE_TAP_DELAY →
      simTaps w [⟨t, x₁⟩, ⟨t + d, x₂⟩] = [.double 0 1 (tapHalf x₂ w)]) ∧
    (DOUBLE_TAP_DELAY ≤ d →
      simTaps w [⟨t, x₁⟩, ⟨t + d, x₂⟩] = [.single 0, .single 1]) := by
  have hD : DOUBLE_TAP_DELAY = 300 := rfl
  constructor
  · intro h
    have h1 : ¬ (t + DOUBLE_TAP_DELAY ≤ t + d) := by omega
    have h2 : t + d - t < DOUBLE_TAP_DELAY := by omega
    simp [simTaps, simTapsAux, h1, h2]
    omega
  · intro h
    have h1 : t + DOUBLE_TAP_DELAY ≤ t + d := by omega
    simp [simTaps, simTapsAux, h1]

/-- Witness for `tap_pair_classification`: taps at `0` and `299` give a
`double`, taps at `0` and `301` give two `single`s. -/
theorem tap_pair_classification_witness :
    simTaps 100 [⟨0, 10⟩, ⟨299, 80⟩] = [.double 0 1 (tapHalf 80 100)] ∧
    simTaps 100 [⟨0, 10⟩, ⟨301, 80⟩] = [.single 0, .single 1] :=
  ⟨(tap_pair_classification 0 299 10 80 100 (by norm_num)).1
      (by rw [DOUBLE_TAP_DELAY]; norm_num),
    (tap_pair_classification 0 301 10 80 100 (by norm_num)).2
      (by rw [DOUBLE_TAP_DELAY]; norm_num)⟩

/-- The consumed tap indices of a run of the simulator started at index
`k` are exactly `k, k+1, …` (preceded by the recorded pending tap's index
when `lastTapRef` is set): every incoming tap is consumed by exactly one
terminal classification. -/
theorem consumedOf_simTapsAux (w : ℚ) (events : List TapEvent) :
    ∀ k : ℕ,
      (∀ t i : ℕ, consumedOf (simTapsAux w (some (t, i)) k events) =
        i :: List.range' k events.length) ∧
      consumedOf (simTapsAux w none k events) =
        List.range' k events.length := by
  have hD : DOUBLE_TAP_DELAY = 300 := rfl
  induction events with
  | nil =>
    intro k
    exact ⟨fun t i => rfl, rfl⟩
  | cons e rest ih =>
    intro k
    refine ⟨fun t i => ?_, ?_⟩
    · rw [simTapsAux]
      by_cases hfire : t + DOUBLE_TAP_DELAY ≤ e.timestampMs
      · rw [if_pos hfire]
        simp [consumedOf, consumedTaps, (ih (k + 1)).1 e.timestampMs k,
          List.range'_succ]
      · rw [if_neg hfire]
        have hlt : e.timestampMs - t < DOUBLE_TAP_DELAY := by omega
        rw [if_pos hlt]
        simp [consumedOf, consumedTaps, (ih (k + 1)).2, List.range'_succ]
    · rw [simTapsAux]
      simp [(ih (k + 1)).1 e.timestampMs k, List.range'_succ]

/-- Claim C8 (confirmed): over any monotonically clocked tap sequence,
every tap is consumed by exactly one terminal classification — the
consumed indices of the emitted classifications are precisely
`0, 1, …, n−1` in order, each exactly once; a `double` consumes both of
its taps and cancels the first tap's deferred `single`, which never
fires. -/
theorem each_tap_classified_exactly_once (w : ℚ) (events : List TapEvent)
    (h : StrictlyClocked events) :
    consumedOf (simTaps w events) = List.range events.length := by
  rw [List.range_eq_range']
  exact (consumedOf_simTapsAux w events 0).2

/-- Witness for `each_tap_classified_exactly_once` on the three-tap
sequence `0, 100, 450` (a `double` then a `single`). -/
theorem each_tap_classified_exactly_once_witness :
    StrictlyClocked [⟨0, 10⟩, ⟨100, 80⟩, ⟨450, 50⟩] ∧
    consumedOf (simTaps 100 [⟨0, 10⟩, ⟨100, 80⟩, ⟨450, 50⟩]) =
      List.range 3 :=
  ⟨by simp [StrictlyClocked],
    each_tap_classified_exactly_once 100 [⟨0, 10⟩, ⟨100, 80⟩, ⟨450, 50⟩]
      (by simp [StrictlyClocked])⟩

/-- Claim C3 (corrected, counterexample): triggering the play/pause
overlay at `t = 0` and again at `t = 2000` does not restart the
countdown — the second trigger is a same-value update that does not
re-run the auto-hide effect — so the hide deadline stays `2500`, not
`4500`. -/
theorem overlay_retrigger_does_not_restart_cex :
    (overlayRun PLAY_PAUSE_OVERLAY_DURATION hiddenOverlay [0, 2000]).hideAtMs
      = some 2500 ∧ (2500 : ℕ) ≠ 4500 := by
  constructor
  · rfl
  · decide

/-- Claim C3 (corrected, amended): a trigger while the overlay is hidden
makes it visible and arms the fixed countdown (2500 ms play/pause overlay,
1000 ms seek indicator); a trigger while it is already visible leaves the
state — including the running countdown — unchanged, because the
visibility flag does not change and the auto-hide effect keyed on it does
not re-run; at expiry visibility becomes false.  Hence triggers at `t = 0`
and `t = 2000` keep the overlay visible only until `t = 2500`. -/
theorem overlay_timer_semantics (d now : ℕ) (s : OverlayState) :
    (s.visible = false → overlayTrigger d now s =
      { visible := true, hideAtMs := some (now + d) }) ∧
    (s.visible = true → overlayTrigger d now s = s) ∧
    (∀ m : ℕ, (overlayExpire { visible := true, hideAtMs := some m }).visible
      = false) ∧
    PLAY_PAUSE_OVERLAY_DURATION = 2500 ∧ SEEK_INDICATOR_DURATION = 1000 ∧
    (overlayRun PLAY_PAUSE_OVERLAY_DURATION hiddenOverlay [0, 2000]).hideAtMs
      = some 2500 := by
  refine ⟨?_, ?_, ?_, rfl, rfl, rfl⟩
  · intro h
    simp [overlayTrigger, h]
  · intro h
    simp [overlayTrigger, h]
  · intro m
    rfl

/-- Witness for `overlay_timer_semantics` at `d = 2500`, `now = 0`,
starting from the hidden overlay. -/
theorem overlay_timer_semantics_witness :
    overlayTrigger PLAY_PAUSE_OVERLAY_DURATION 0 hiddenOverlay =
      { visible := true, hideAtMs := some (0 + PLAY_PAUSE_OVERLAY_DURATION) } ∧
    (overlayRun PLAY_PAUSE_OVERLAY_DURATION hiddenOverlay [0, 2000]).hideAtMs
      = some 2500 :=
  ⟨(overlay_timer_semantics PLAY_PAUSE_OVERLAY_DURATION 0 hiddenOverlay).1 rfl,
    (overlay_timer_semantics PLAY_PAUSE_OVERLAY_DURATION 0
      hiddenOverlay).2.2.2.2.2⟩

/-- Claim C9 (confirmed): while `isDragging` is true a polling tick leaves
the whole component state unchanged — in particular the displayed scrub
position (`seekbarValue`, `seekbarPosition`) and the displayed current
time; once `isDragging` is false again a tick resumes updating the current
time, the duration, and (when `duration > 0`) the seekbar fraction and
pixel position. -/
theorem polling_suppressed_while_dragging (w : ℚ) (p : PlayerSnapshot)
    (s : UiState) :
    (s.isDragging = true → pollStep w p s = s) ∧
    (s.isDragging = false →
      (pollStep w p s).currentTime = p.currentTime.getD 0 ∧
      (pollStep w p s).duration = p.duration.getD 0 ∧
      (0 < p.duration.getD 0 →
        (pollStep w p s).seekbarValue =
          p.currentTime.getD 0 / p.duration.getD 0 ∧
        (pollStep w p s).seekbarPosition =
          p.currentTime.getD 0 / p.duration.getD 0 * w)) := by
  constructor
  · intro hdrag
    simp [pollStep, hdrag]
  · intro hdrag
    by_cases hdur : 0 < p.duration.getD 0
    · simp [pollStep, hdrag, hdur]
    · simp [pollStep, hdrag, hdur]

/-- Witness for `polling_suppressed_while_dragging`: with `isDragging`
true a tick is the identity on a concrete state. -/
theorem polling_suppressed_while_dragging_witness :
    pollStep 320 ⟨some 5, some 100, some true, some "loading"⟩
      ⟨1, 100, true, false, 1 / 100, 16 / 5, true⟩ =
      ⟨1, 100, true, false, 1 / 100, 16 / 5, true⟩ :=
  (polling_suppressed_while_dragging 320
    ⟨some 5, some 100, some true, some "loading"⟩
    ⟨1, 100, true, false, 1 / 100, 16 / 5, true⟩).1 rfl

/-- For rationals, flooring after division by 60 equals integer (euclidean)
division of the floor by 60. -/
theorem floor_div_sixty (q : ℚ) : ⌊q / 60⌋ = ⌊q⌋ / 60 := by
  have hz : ((⌊q⌋ : ℚ)) ≤ q := Int.floor_le q
  have hz2 : q < ⌊q⌋ + 1 := Int.lt_floor_add_one q
  have h1 : 60 * (⌊q⌋ / 60) ≤ ⌊q⌋ := by omega
  have h2 : ⌊q⌋ < 60 * (⌊q⌋ / 60) + 60 := by omega
  have key1 : ((⌊q⌋ / 60 : ℤ) : ℚ) * 60 ≤ q := by
    have hc : ((60 * (⌊q⌋ / 60) : ℤ) : ℚ) ≤ ((⌊q⌋ : ℤ) : ℚ) := by
      exact_mod_cast h1
    push_cast at hc
    linarith
  have key2 : q < (((⌊q⌋ / 60 : ℤ) : ℚ) + 1) * 60 := by
    have h2' : ⌊q⌋ + 1 ≤ 60 * (⌊q⌋ / 60) + 60 := by omega
    have hc : ((⌊q⌋ + 1 : ℤ) : ℚ) ≤ ((60 * (⌊q⌋ / 60) + 60 : ℤ) : ℚ) := by
      exact_mod_cast h2'
    push_cast at hc
    linarith
  refine Int.floor_eq_iff.mpr ⟨?_, ?_⟩
  · rw [le_div_iff (by norm_num : (0 : ℚ) < 60)]
    linarith
  · rw [div_lt_iff (by norm_num : (0 : ℚ) < 60)]
    linarith

/-- Claim C10 (confirmed): `formatTime` is total; for every `seconds ≥ 1`
it renders `floor(seconds/60)`, a colon, and the remaining whole seconds
zero-padded to two digits; the inputs `0`, `NaN`, `null` and `undefined`
all render as `'0:00'`, so an input of exactly `0` is indistinguishable
from a missing value; and `65` renders as `'1:05'`. -/
theorem formatTime_total (q : ℚ) (h1 : 1 ≤ q) :
    formatTime (.num q) =
      toString ⌊q / 60⌋ ++ ":" ++
        padStart2 (toString (⌊q⌋ - 60 * ⌊q / 60⌋)) ∧
    formatTime (.num 0) = "0:00" ∧ formatTime .nan = "0:00" ∧
    formatTime .null = "0:00" ∧ formatTime .undef = "0:00" ∧
    formatTime (.num 65) = "1:05" := by
  have hgen : ∀ r : ℚ, 1 ≤ r → formatTime (.num r) =
      toString ⌊r / 60⌋ ++ ":" ++
        padStart2 (toString (⌊r⌋ - 60 * ⌊r / 60⌋)) := by
    intro r hr
    have hr0 : ¬ r = 0 := by
      intro h
      rw [h] at hr
      norm_num at hr
    have hfl : (1 : ℤ) ≤ ⌊r⌋ := Int.le_floor.mpr (by exact_mod_cast hr)
    have hm : ⌊((⌊r⌋ : ℤ) : ℚ) / 60⌋ = ⌊r / 60⌋ := by
      rw [floor_div_sixty ((⌊r⌋ : ℤ) : ℚ), Int.floor_intCast,
        floor_div_sixty r]
    have hs : (⌊r⌋ : ℤ).tmod 60 = ⌊r⌋ - 60 * ⌊r / 60⌋ := by
      rw [floor_div_sixty r, Int.tmod_eq_emod (by omega) (by norm_num)]
      omega
    simp only [formatTime, if_neg hr0]
    rw [hm, hs]
  refine ⟨hgen q h1, rfl, rfl, rfl, rfl, ?_⟩
  rw [hgen 65 (by norm_num)]
  have hf65 : ⌊(65 : ℚ)⌋ = 65 := by
    rw [show (65 : ℚ) = ((65 : ℤ) : ℚ) by norm_num, Int.floor_intCast]
  have hd65 : ⌊(65 : ℚ) / 60⌋ = 1 := by
    rw [floor_div_sixty, hf65]
    decide
  rw [hf65, hd65]
  rfl

/-- Witness for `formatTime_total` at `seconds = 65`. -/
theorem formatTime_total_witness :
    (1 : ℚ) ≤ 65 ∧ formatTime (.num 65) = "1:05" :=
  ⟨by norm_num, (formatTime_total 65 (by norm_num)).2.2.2.2.2⟩

end VideoPlayer
